import Mathlib

/-!
Shallow embedding of the reconciliation state model of
packages/flick-sync/src/state.rs.

Modelling conventions, used uniformly below:
* PathBuf is modelled as String; Path::join as pathJoin (root ++ "/" ++ p).
* OffsetDateTime is modelled as Int (seconds since epoch); Date as String.
* The local filesystem is a total map from full path to FsKind.  A stat
  (tokio::fs::metadata) observes the FsKind directly: FsKind.file is a
  regular file, FsKind.notFile an existing non-regular entry,
  FsKind.absent a NotFound error, FsKind.inaccessible any other stat
  error.  fs::remove_file succeeds exactly on a regular file and is
  modelled by Fs.removeAt; its failure is only logged by the code, so the
  model records the attempt as an Event and leaves the map unchanged on
  failure.
* Remote interactions (file removal attempts and best-effort transcode
  session cancellation, i.e. the server.transcode_session(..)/cancel()
  exchange) are recorded as an ordered list of Event values; log lines
  are not modelled.
* Rust panics (unwrap on None, unrecognized enum variants, out-of-bounds
  indexing) are modelled by Except String, the error carrying the panic
  message; Except.ok is normal return.
-/

namespace FlickSync

/-- Observable kind of a path on the local filesystem, as distinguished by
the error handling of the code: regular file, existing non-file, NotFound,
or a stat error other than NotFound. -/
inductive FsKind
  | file
  | notFile
  | absent
  | inaccessible
deriving DecidableEq

/-- The local filesystem: a total assignment of an FsKind to every path. -/
abbrev Fs := String → FsKind

/-- Path::join of the store root and a relative artifact path. -/
def pathJoin (root p : String) : String := root ++ "/" ++ p

/-- Effect of fs::remove_file on the filesystem: removal succeeds exactly
when the path is a regular file; on any failure (NotFound, directory,
permission) the code only logs, so the map is unchanged. -/
def Fs.removeAt (fs : Fs) (p : String) : Fs :=
  fun q => if q = p then (if fs p = FsKind.file then FsKind.absent else fs p) else fs q

/-- Observable side effects of the reconciliation operations: an attempted
file removal, and an attempted best-effort cancellation of a remote
transcode session (the transcode_session lookup followed by cancel; both
failures are only logged by the code). -/
inductive Event
  | removeFile (path : String)
  | cancelSession (id : String)
deriving DecidableEq

/-- ThumbnailState from state.rs: None, or Downloaded carrying a relative
path. -/
inductive ThumbnailState
  | none
  | downloaded (path : String)
deriving DecidableEq

/-- ThumbnailState::is_none. -/
def ThumbnailState.is_none : ThumbnailState → Bool
  | ThumbnailState.none => true
  | ThumbnailState.downloaded _ => false

/-- ThumbnailState::verify: stats root/path; on NotFound self-heals to
None; a regular file, a non-file, or any other stat error leaves the
state unchanged (the last two only log). No events are emitted. -/
def ThumbnailState.verify (t : ThumbnailState) (root : String) (fs : Fs) : ThumbnailState :=
  match t with
  | ThumbnailState.none => ThumbnailState.none
  | ThumbnailState.downloaded path =>
    match fs (pathJoin root path) with
    | FsKind.file => ThumbnailState.downloaded path
    | FsKind.notFile => ThumbnailState.downloaded path
    | FsKind.absent => ThumbnailState.none
    | FsKind.inaccessible => ThumbnailState.downloaded path

/-- ThumbnailState::delete: on Downloaded, unconditionally attempts removal
of root/path (failure only logged) and becomes None; a no-op on None. -/
def ThumbnailState.delete (t : ThumbnailState) (root : String) (fs : Fs) :
    ThumbnailState × Fs × List Event :=
  match t with
  | ThumbnailState.none => (ThumbnailState.none, fs, [])
  | ThumbnailState.downloaded path =>
    let file := pathJoin root path
    (ThumbnailState.none, fs.removeAt file, [Event.removeFile file])

/-- DownloadState from state.rs: None, Downloading, Transcoding (with a
remote session id), Downloaded, Transcoded; the non-None states carry a
relative path. -/
inductive DownloadState
  | none
  | downloading (path : String)
  | transcoding (sessionId : String) (path : String)
  | downloaded (path : String)
  | transcoded (path : String)
deriving DecidableEq

/-- DownloadState::is_none. -/
def DownloadState.is_none : DownloadState → Bool
  | DownloadState.none => true
  | _ => false

/-- The (path, session_id) pair extracted by the match at the top of both
DownloadState::verify and DownloadState::delete; None for the None state. -/
def DownloadState.target : DownloadState → Option (String × Option String)
  | DownloadState.none => Option.none
  | DownloadState.downloading path => some (path, Option.none)
  | DownloadState.transcoding sid path => some (path, some sid)
  | DownloadState.downloaded path => some (path, Option.none)
  | DownloadState.transcoded path => some (path, Option.none)

/-- The recorded path of a non-None DownloadState. -/
def DownloadState.path? (d : DownloadState) : Option String :=
  d.target.map Prod.fst

/-- The carried transcode session id, present only for Transcoding. -/
def DownloadState.session? (d : DownloadState) : Option String :=
  d.target.bind Prod.snd

/-- The best-effort session-cancel events for an optional session id. -/
def cancelEvents : Option String → List Event
  | Option.none => []
  | some sid => [Event.cancelSession sid]

/-- DownloadState::verify: None is a no-op; otherwise stats root/path.  If
it exists (file or not) or the stat fails for a reason other than
NotFound, the state is unchanged (non-file and stat errors only log).  On
NotFound, best-effort cancels any carried transcode session and becomes
None. -/
def DownloadState.verify (d : DownloadState) (root : String) (fs : Fs) :
    DownloadState × List Event :=
  match d.target with
  | Option.none => (d, [])
  | some (path, sid?) =>
    match fs (pathJoin root path) with
    | FsKind.file => (d, [])
    | FsKind.notFile => (d, [])
    | FsKind.inaccessible => (d, [])
    | FsKind.absent => (DownloadState.none, cancelEvents sid?)

/-- DownloadState::delete: None is a no-op; otherwise unconditionally
attempts removal of root/path (failure only logged), best-effort cancels
any carried transcode session, and becomes None. -/
def DownloadState.delete (d : DownloadState) (root : String) (fs : Fs) :
    DownloadState × Fs × List Event :=
  match d.target with
  | Option.none => (d, fs, [])
  | some (path, sid?) =>
    let file := pathJoin root path
    (DownloadState.none, fs.removeAt file, Event.removeFile file :: cancelEvents sid?)

/-- CollectionState from state.rs.  HashSet of item ids modelled as a
List Nat (update never touches it). -/
structure CollectionState where
  id : Nat
  library : Nat
  title : String
  items : List Nat
  last_updated : Int
  thumbnail : ThumbnailState
deriving DecidableEq

/-- The fields of a remote Collection snapshot consumed by
CollectionState::from and update: rating_key(), title(),
metadata().library_section_id and metadata().updated_at.  The code
unwraps the two metadata fields; the snapshot is modelled with them
present (the unwrap panic is modelled only where a claim depends on it,
in the VideoState operations below). -/
structure CollectionItem where
  ratingKey : Nat
  librarySectionId : Nat
  title : String
  updatedAt : Int
deriving DecidableEq

/-- CollectionState::from. -/
def CollectionState.fromItem (c : CollectionItem) : CollectionState :=
  { id := c.ratingKey
    library := c.librarySectionId
    title := c.title
    items := []
    last_updated := c.updatedAt
    thumbnail := ThumbnailState.none }

/-- CollectionState::update: overwrites the title, verifies the
thumbnail, and deletes it when it is not None and the remote updated_at
is strictly newer than last_updated.  Returns the updated record, the
resulting filesystem, and the emitted events. -/
def CollectionState.update (c : CollectionState) (snap : CollectionItem) (root : String)
    (fs : Fs) : CollectionState × Fs × List Event :=
  let c1 := { c with title := snap.title }
  let t := c1.thumbnail.verify root fs
  if t ≠ ThumbnailState.none ∧ snap.updatedAt > c1.last_updated then
    let td := t.delete root fs
    ({ c1 with thumbnail := td.1 }, td.2.1, td.2.2)
  else
    ({ c1 with thumbnail := t }, fs, [])

/-- PlaylistState from state.rs. -/
structure PlaylistState where
  id : Nat
  title : String
  videos : List Nat
deriving DecidableEq

/-- The fields of a remote Playlist snapshot consumed by the code:
rating_key() and title(). -/
structure PlaylistItem where
  ratingKey : Nat
  title : String
deriving DecidableEq

/-- PlaylistState::from. -/
def PlaylistState.fromItem (p : PlaylistItem) : PlaylistState :=
  { id := p.ratingKey, title := p.title, videos := [] }

/-- PlaylistState::update: overwrites only the title. -/
def PlaylistState.update (p : PlaylistState) (snap : PlaylistItem) : PlaylistState :=
  { p with title := snap.title }

/-- LibraryType from state.rs. -/
inductive LibraryType
  | movie
  | show
deriving DecidableEq

/-- LibraryState from state.rs. -/
structure LibraryState where
  id : Nat
  title : String
  library_type : LibraryType
deriving DecidableEq

/-- SeasonState from state.rs; the show field is named showId because
show is a Lean keyword. -/
structure SeasonState where
  id : Nat
  showId : Nat
  index : Nat
  title : String
deriving DecidableEq

/-- The fields of a remote Season snapshot consumed by the code:
rating_key(), title(), metadata().parent.parent_rating_key and
metadata().index (both unwrapped by the code, modelled as present). -/
structure SeasonItem where
  ratingKey : Nat
  parentRatingKey : Nat
  index : Nat
  title : String
deriving DecidableEq

/-- SeasonState::from. -/
def SeasonState.fromItem (s : SeasonItem) : SeasonState :=
  { id := s.ratingKey, showId := s.parentRatingKey, index := s.index, title := s.title }

/-- SeasonState::update: overwrites index, show and title. -/
def SeasonState.update (s : SeasonState) (snap : SeasonItem) : SeasonState :=
  { s with index := snap.index, showId := snap.parentRatingKey, title := snap.title }

/-- ShowState from state.rs. -/
structure ShowState where
  id : Nat
  library : Nat
  title : String
  year : Nat
  last_updated : Int
  thumbnail : ThumbnailState
deriving DecidableEq

/-- The fields of a remote Show snapshot consumed by the code:
rating_key(), title(), metadata().library_section_id, metadata().year
and metadata().updated_at (unwrapped by the code, modelled as
present). -/
structure ShowItem where
  ratingKey : Nat
  librarySectionId : Nat
  title : String
  year : Nat
  updatedAt : Int
deriving DecidableEq

/-- ShowState::from. -/
def ShowState.fromItem (s : ShowItem) : ShowState :=
  { id := s.ratingKey
    library := s.librarySectionId
    title := s.title
    year := s.year
    last_updated := s.updatedAt
    thumbnail := ThumbnailState.none }

/-- ShowState::update: overwrites year and title, verifies the thumbnail,
and deletes it when it is not None and the remote updated_at is strictly
newer than last_updated. -/
def ShowState.update (s : ShowState) (snap : ShowItem) (root : String) (fs : Fs) :
    ShowState × Fs × List Event :=
  let s1 := { s with year := snap.year, title := snap.title }
  let t := s1.thumbnail.verify root fs
  if t ≠ ThumbnailState.none ∧ snap.updatedAt > s1.last_updated then
    let td := t.delete root fs
    ({ s1 with thumbnail := td.1 }, td.2.1, td.2.2)
  else
    ({ s1 with thumbnail := t }, fs, [])

/-- MovieState from state.rs (the Movie variant of the video detail). -/
structure MovieState where
  library : Nat
  year : Nat
deriving DecidableEq

/-- EpisodeState from state.rs (the Episode variant of the video detail). -/
structure EpisodeState where
  season : Nat
  index : Nat
deriving DecidableEq

/-- The remote MetadataType values distinguished by VideoState::from:
Movie, Episode, or any other variant (collapsed into otherType, all of
which hit the panicking catch-all). -/
inductive MetadataType
  | movie
  | episode
  | otherType
deriving DecidableEq

/-- The Metadata fields consumed by the VideoState / MovieState /
EpisodeState operations.  Optional exactly where the remote type is
Option in plex_api and the code calls unwrap, so that the unwrap panic is
representable. -/
structure Metadata where
  metadataType : Option MetadataType
  librarySectionId : Option Nat
  year : Option Nat
  parentRatingKey : Option Nat
  index : Option Nat
  originallyAvailableAt : Option String
  updatedAt : Option Int
deriving DecidableEq

/-- The panic message of Option::unwrap on None. -/
def unwrapMsg : String := "called unwrap on a None value"

/-- Rust Option::unwrap: the value, or a panic modelled as Except.error. -/
def unwrap {α : Type} : Option α → Except String α
  | some v => Except.ok v
  | Option.none => Except.error unwrapMsg

/-- MovieState::from: unwraps library_section_id and year. -/
def MovieState.fromMeta (md : Metadata) : Except String MovieState :=
  match unwrap md.librarySectionId with
  | Except.error e => Except.error e
  | Except.ok lib =>
    match unwrap md.year with
    | Except.error e => Except.error e
    | Except.ok y => Except.ok { library := lib, year := y }

/-- MovieState::update: overwrites year (unwrapped). -/
def MovieState.update (m : MovieState) (md : Metadata) : Except String MovieState :=
  match unwrap md.year with
  | Except.error e => Except.error e
  | Except.ok y => Except.ok { m with year := y }

/-- EpisodeState::from: unwraps parent.parent_rating_key and index. -/
def EpisodeState.fromMeta (md : Metadata) : Except String EpisodeState :=
  match unwrap md.parentRatingKey with
  | Except.error e => Except.error e
  | Except.ok s =>
    match unwrap md.index with
    | Except.error e => Except.error e
    | Except.ok i => Except.ok { season := s, index := i }

/-- EpisodeState::update: overwrites season and index (unwrapped); the
prior value is fully overwritten, as in the source. -/
def EpisodeState.update (_e : EpisodeState) (md : Metadata) : Except String EpisodeState :=
  match unwrap md.parentRatingKey with
  | Except.error er => Except.error er
  | Except.ok s =>
    match unwrap md.index with
    | Except.error er => Except.error er
    | Except.ok i => Except.ok { season := s, index := i }

/-- One part of a remote media record: its (optional, unwrapped) duration. -/
structure MediaPart where
  duration : Option Nat
deriving DecidableEq

/-- A remote media record: its id and its parts. -/
structure Media where
  id : Nat
  parts : List MediaPart
deriving DecidableEq

/-- The fields of a remote video item consumed by VideoState::from and
update: rating_key(), title(), metadata() and media(). -/
structure VideoItem where
  ratingKey : Nat
  title : String
  metadata : Metadata
  media : List Media
deriving DecidableEq

/-- VideoDetail from state.rs: the Movie / Episode tagged union. -/
inductive VideoDetail
  | movie (m : MovieState)
  | episode (e : EpisodeState)
deriving DecidableEq

/-- The discriminant of a VideoDetail. -/
inductive DetailKind
  | movie
  | episode
deriving DecidableEq

/-- Which variant a VideoDetail is. -/
def VideoDetail.kind : VideoDetail → DetailKind
  | VideoDetail.movie _ => DetailKind.movie
  | VideoDetail.episode _ => DetailKind.episode

/-- VideoPart from state.rs: a duration and a DownloadState. -/
structure VideoPart where
  duration : Nat
  download : DownloadState
deriving DecidableEq

/-- VideoState from state.rs. -/
structure VideoState where
  id : Nat
  title : String
  detail : VideoDetail
  air_date : String
  thumbnail : ThumbnailState
  media_id : Nat
  last_updated : Int
  parts : List VideoPart
deriving DecidableEq

/-- VideoState::from: distinguishes the detail variant by the remote
metadata_type, panicking on anything other than Movie or Episode; indexes
media()[0] (panicking when empty); unwraps every part duration,
originally_available_at and updated_at.  Panics are Except.error with the
corresponding message. -/
def VideoState.fromItem (item : VideoItem) : Except String VideoState :=
  match (match item.metadata.metadataType with
         | some MetadataType.movie => (MovieState.fromMeta item.metadata).map VideoDetail.movie
         | some MetadataType.episode =>
           (EpisodeState.fromMeta item.metadata).map VideoDetail.episode
         | _ => Except.error "Unexpected video type") with
  | Except.error e => Except.error e
  | Except.ok detail =>
    match item.media.head? with
    | Option.none => Except.error "index out of bounds"
    | some media =>
      match media.parts.mapM (fun p => unwrap p.duration) with
      | Except.error e => Except.error e
      | Except.ok durations =>
        match unwrap item.metadata.originallyAvailableAt with
        | Except.error e => Except.error e
        | Except.ok airDate =>
          match unwrap item.metadata.updatedAt with
          | Except.error e => Except.error e
          | Except.ok lastUpdated =>
            Except.ok
              { id := item.ratingKey
                title := item.title
                detail := detail
                air_date := airDate
                thumbnail := ThumbnailState.none
                media_id := media.id
                last_updated := lastUpdated
                parts := durations.map
                  (fun d => { duration := d, download := DownloadState.none }) }

/-- The match on self.detail inside VideoState::update, dispatching to
MovieState::update or EpisodeState::update and keeping the variant. -/
def detailUpdate (d : VideoDetail) (md : Metadata) : Except String VideoDetail :=
  match d with
  | VideoDetail.movie m => (m.update md).map VideoDetail.movie
  | VideoDetail.episode e => (e.update md).map VideoDetail.episode

/-- The body of the first per-part loop of VideoState::update:
part.download.verify. -/
def VideoPart.verifyStep (p : VideoPart) (root : String) (fs : Fs) : VideoPart × List Event :=
  let dv := p.download.verify root fs
  ({ p with download := dv.1 }, dv.2)

/-- The body of the second per-part loop of VideoState::update (the
staleness branch): re-verify the download when it is not None. -/
def VideoPart.staleStep (p : VideoPart) (root : String) (fs : Fs) : VideoPart × List Event :=
  if p.download ≠ DownloadState.none then p.verifyStep root fs else (p, [])

/-- The first per-part loop of VideoState::update: verify every part's
download, collecting the updated parts and the emitted events in order. -/
def verifyParts (parts : List VideoPart) (root : String) (fs : Fs) :
    List VideoPart × List Event :=
  ((parts.map (fun p => p.verifyStep root fs)).map Prod.fst,
    ((parts.map (fun p => p.verifyStep root fs)).map Prod.snd).flatten)

/-- The second per-part loop of VideoState::update (staleness branch):
re-verify every part whose download is not None. -/
def staleParts (parts : List VideoPart) (root : String) (fs : Fs) :
    List VideoPart × List Event :=
  ((parts.map (fun p => p.staleStep root fs)).map Prod.fst,
    ((parts.map (fun p => p.staleStep root fs)).map Prod.snd).flatten)

/-- VideoState::update: overwrites the title, updates the existing detail
variant in place, verifies the thumbnail and every part's download, then,
when the remote updated_at (unwrapped) is strictly newer than
last_updated, deletes a non-None thumbnail and re-verifies (not deletes)
every non-None part download.  last_updated itself is never written. -/
def VideoState.update (v : VideoState) (item : VideoItem) (root : String) (fs : Fs) :
    Except String (VideoState × Fs × List Event) :=
  match detailUpdate v.detail item.metadata with
  | Except.error e => Except.error e
  | Except.ok detail =>
    let thumb := v.thumbnail.verify root fs
    let pv := verifyParts v.parts root fs
    match item.metadata.updatedAt with
    | Option.none => Except.error unwrapMsg
    | some updatedAt =>
      if updatedAt > v.last_updated then
        let td := if thumb ≠ ThumbnailState.none then thumb.delete root fs else (thumb, fs, [])
        let ps := staleParts pv.1 root td.2.1
        Except.ok
          ({ v with title := item.title, detail := detail, thumbnail := td.1, parts := ps.1 },
            td.2.1, pv.2 ++ td.2.2 ++ ps.2)
      else
        Except.ok
          ({ v with title := item.title, detail := detail, thumbnail := thumb, parts := pv.1 },
            fs, pv.2)

section ListMapCodec

variable {V : Type}

/-- Insertion into the identifier-keyed map, with the overwrite-on-equal-
key semantics of HashMap: the binding for an existing key is replaced,
otherwise the new binding is added.  The map is represented as an
association list. -/
def mapInsert : List (Nat × V) → Nat → V → List (Nat × V)
  | [], k, v => [(k, v)]
  | kv :: rest, k, v =>
    if kv.1 = k then (k, v) :: rest else kv :: mapInsert rest k v

/-- Lookup in the identifier-keyed map: the record bound to the first
entry carrying the key. -/
def mapLookup : List (Nat × V) → Nat → Option V
  | [], _ => Option.none
  | kv :: rest, k => if kv.1 = k then some kv.2 else mapLookup rest k

/-- from_list in state.rs: deserializes an array of records into an
identifier-keyed map, keying each record by its own id (the ListItem
trait's id(), passed here as idOf); duplicate ids resolve to the later
record, as when collecting into a HashMap. -/
def fromList (idOf : V → Nat) (l : List V) : List (Nat × V) :=
  l.foldl (fun m v => mapInsert m (idOf v) v) []

/-- into_list in state.rs: serializes an identifier-keyed map as the array
of its records (map.values()). -/
def intoList (m : List (Nat × V)) : List V := m.map Prod.snd

/-- Key consistency: every key of the map equals the id of its record. -/
abbrev keyConsistent (idOf : V → Nat) (m : List (Nat × V)) : Prop :=
  ∀ kv ∈ m, kv.1 = idOf kv.2

/-- Well-formedness of an identifier-keyed collection: distinct keys, each
equal to its record's id (the documented invariant of the data model). -/
abbrev collOk (idOf : V → Nat) (m : List (Nat × V)) : Prop :=
  (m.map Prod.fst).Nodup ∧ keyConsistent idOf m

end ListMapCodec

/-- ServerState from state.rs: token, name and the six identifier-keyed
collections (HashMaps, represented as association lists). -/
structure ServerState where
  token : String
  name : String
  playlists : List (Nat × PlaylistState)
  collections : List (Nat × CollectionState)
  libraries : List (Nat × LibraryState)
  shows : List (Nat × ShowState)
  seasons : List (Nat × SeasonState)
  videos : List (Nat × VideoState)
deriving DecidableEq

/-- The serialized form of a ServerState: each identifier-keyed collection
emitted as a plain array of records. -/
structure ServerDoc where
  token : String
  name : String
  playlists : List PlaylistState
  collections : List CollectionState
  libraries : List LibraryState
  shows : List ShowState
  seasons : List SeasonState
  videos : List VideoState
deriving DecidableEq

/-- Serialization of a ServerState: every collection through into_list. -/
def serializeServer (s : ServerState) : ServerDoc :=
  { token := s.token
    name := s.name
    playlists := intoList s.playlists
    collections := intoList s.collections
    libraries := intoList s.libraries
    shows := intoList s.shows
    seasons := intoList s.seasons
    videos := intoList s.videos }

/-- Deserialization of a ServerDoc: every array through from_list, keyed
by the record's own id. -/
def deserializeServer (d : ServerDoc) : ServerState :=
  { token := d.token
    name := d.name
    playlists := fromList (fun p => p.id) d.playlists
    collections := fromList (fun c => c.id) d.collections
    libraries := fromList (fun l => l.id) d.libraries
    shows := fromList (fun s => s.id) d.shows
    seasons := fromList (fun s => s.id) d.seasons
    videos := fromList (fun v => v.id) d.videos }

/-! Lemmas about the list/map codec. -/

/-- The first record in a list whose id is a given key. -/
def findValue {V : Type} (idOf : V → Nat) (k : Nat) : List V → Option V
  | [] => Option.none
  | v :: l => if idOf v = k then some v else findValue idOf k l

theorem findValue_append {V : Type} (idOf : V → Nat) (k : Nat) (l1 l2 : List V) :
    findValue idOf k (l1 ++ l2) = (findValue idOf k l1).or (findValue idOf k l2) := by
  induction l1 with
  | nil => simp [findValue]
  | cons v l ih =>
    by_cases h : idOf v = k <;> simp [findValue, h, ih]

theorem findValue_eq_some {V : Type} (idOf : V → Nat) (k : Nat) (l : List V) (v : V)
    (h : findValue idOf k l = some v) : v ∈ l ∧ idOf v = k := by
  induction l with
  | nil => simp [findValue] at h
  | cons w l ih =>
    by_cases hw : idOf w = k
    · rw [findValue, if_pos hw] at h
      cases h
      exact ⟨List.mem_cons_self _ _, hw⟩
    · rw [findValue, if_neg hw] at h
      obtain ⟨hv, hk⟩ := ih h
      exact ⟨List.mem_cons_of_mem w hv, hk⟩

theorem findValue_of_mem {V : Type} (idOf : V → Nat) (k : Nat) (l : List V) (v : V)
    (hnd : (l.map idOf).Nodup) (hv : v ∈ l) (hk : idOf v = k) :
    findValue idOf k l = some v := by
  induction l with
  | nil => simp at hv
  | cons w l ih =>
    rw [List.map_cons, List.nodup_cons] at hnd
    obtain ⟨hw_notin, hnd2⟩ := hnd
    rcases List.mem_cons.mp hv with rfl | hvl
    · rw [findValue, if_pos hk]
    · have hw : ¬ idOf w = k := by
        intro hwk
        have heq : idOf w = idOf v := hwk.trans hk.symm
        exact hw_notin (heq ▸ List.mem_map_of_mem idOf hvl)
      rw [findValue, if_neg hw]
      exact ih hnd2 hvl

theorem mapLookup_mapInsert {V : Type} (m : List (Nat × V)) (k k' : Nat) (v : V) :
    mapLookup (mapInsert m k v) k' = if k' = k then some v else mapLookup m k' := by
  induction m with
  | nil =>
    by_cases h : k' = k
    · subst h
      simp [mapInsert, mapLookup]
    · have h2 : ¬ k = k' := fun hh => h hh.symm
      simp [mapInsert, mapLookup, h, h2]
  | cons kv rest ih =>
    by_cases hk : kv.1 = k
    · by_cases h : k' = k
      · subst h
        simp [mapInsert, mapLookup, hk]
      · have h2 : ¬ k = k' := fun hh => h hh.symm
        have h3 : ¬ kv.1 = k' := by
          rw [hk]
          exact h2
        simp [mapInsert, mapLookup, hk, h, h2, h3]
    · by_cases hk' : kv.1 = k'
      · have h : ¬ k' = k := by
          rw [← hk']
          exact hk
        simp [mapInsert, mapLookup, hk, hk', h]
      · simp [mapInsert, mapLookup, hk, hk', ih]

theorem mapLookup_fromList_aux {V : Type} (idOf : V → Nat) (l : List V)
    (acc : List (Nat × V)) (k : Nat) :
    mapLookup (l.foldl (fun m v => mapInsert m (idOf v) v) acc) k =
      (findValue idOf k l.reverse).or (mapLookup acc k) := by
  induction l generalizing acc with
  | nil => simp [findValue]
  | cons v l ih =>
    rw [List.foldl_cons, ih, List.reverse_cons, findValue_append, mapLookup_mapInsert]
    cases hf : findValue idOf k l.reverse with
    | some w => simp
    | none =>
      by_cases hv : idOf v = k
      · simp [findValue, hv]
      · have h2 : ¬ k = idOf v := fun hh => hv hh.symm
        simp [findValue, hv, h2]

theorem mapLookup_fromList {V : Type} (idOf : V → Nat) (l : List V) (k : Nat) :
    mapLookup (fromList idOf l) k = findValue idOf k l.reverse := by
  have h := mapLookup_fromList_aux idOf l [] k
  simpa [fromList, mapLookup] using h

theorem mapInsert_keyConsistent {V : Type} (idOf : V → Nat) (m : List (Nat × V)) (v : V)
    (hm : keyConsistent idOf m) : keyConsistent idOf (mapInsert m (idOf v) v) := by
  induction m with
  | nil =>
    intro kv hkv
    simp [mapInsert] at hkv
    subst hkv
    rfl
  | cons kv0 rest ih =>
    have hmr : keyConsistent idOf rest := fun x hx => hm x (List.mem_cons_of_mem kv0 hx)
    intro kv hkv
    by_cases h0 : kv0.1 = idOf v
    · rw [mapInsert, if_pos h0] at hkv
      rcases List.mem_cons.mp hkv with heq | h
      · rw [heq]
      · exact hm kv (List.mem_cons_of_mem kv0 h)
    · rw [mapInsert, if_neg h0] at hkv
      rcases List.mem_cons.mp hkv with heq | h
      · rw [heq]
        exact hm kv0 (List.mem_cons_self kv0 rest)
      · exact ih hmr kv h

theorem fromList_keyConsistent {V : Type} (idOf : V → Nat) (l : List V) :
    keyConsistent idOf (fromList idOf l) := by
  suffices h : ∀ acc, keyConsistent idOf acc →
      keyConsistent idOf (l.foldl (fun m v => mapInsert m (idOf v) v) acc) by
    exact h [] (by intro kv hkv; simp at hkv)
  induction l with
  | nil =>
    intro acc hacc
    simpa using hacc
  | cons v l ih =>
    intro acc hacc
    rw [List.foldl_cons]
    exact ih (mapInsert acc (idOf v) v) (mapInsert_keyConsistent idOf acc v hacc)

theorem mapLookup_fromList_eq_some {V : Type} (idOf : V → Nat) (l : List V) (k : Nat) (v : V)
    (hnd : (l.map idOf).Nodup) :
    mapLookup (fromList idOf l) k = some v ↔ v ∈ l ∧ idOf v = k := by
  rw [mapLookup_fromList]
  constructor
  · intro h
    obtain ⟨hm, hk⟩ := findValue_eq_some idOf k l.reverse v h
    exact ⟨List.mem_reverse.mp hm, hk⟩
  · rintro ⟨hv, hk⟩
    apply findValue_of_mem
    · rw [List.map_reverse]
      exact List.nodup_reverse.mpr hnd
    · exact List.mem_reverse.mpr hv
    · exact hk

theorem mapLookup_mem {V : Type} (m : List (Nat × V)) (k : Nat) (v : V)
    (h : mapLookup m k = some v) : (k, v) ∈ m := by
  induction m with
  | nil => simp [mapLookup] at h
  | cons kv rest ih =>
    by_cases hk : kv.1 = k
    · rw [mapLookup, if_pos hk] at h
      cases h
      have : kv = (k, kv.2) := by rw [← hk]
      exact this ▸ List.mem_cons_self kv rest
    · rw [mapLookup, if_neg hk] at h
      exact List.mem_cons_of_mem kv (ih h)

theorem mapLookup_of_mem {V : Type} (m : List (Nat × V)) (k : Nat) (v : V)
    (hnd : (m.map Prod.fst).Nodup) (hm : (k, v) ∈ m) : mapLookup m k = some v := by
  induction m with
  | nil => simp at hm
  | cons kv rest ih =>
    rw [List.map_cons, List.nodup_cons] at hnd
    obtain ⟨hnotin, hnd2⟩ := hnd
    rcases List.mem_cons.mp hm with heq | hmem
    · rw [← heq, mapLookup, if_pos rfl]
    · have hk : ¬ kv.1 = k := by
        intro hh
        apply hnotin
        rw [hh]
        exact List.mem_map.mpr ⟨(k, v), hmem, rfl⟩
      rw [mapLookup, if_neg hk]
      exact ih hnd2 hmem

theorem mapLookup_eq_some_iff {V : Type} (idOf : V → Nat) (m : List (Nat × V)) (k : Nat) (v : V)
    (hnd : (m.map Prod.fst).Nodup) (hkc : keyConsistent idOf m) :
    mapLookup m k = some v ↔ v ∈ intoList m ∧ idOf v = k := by
  constructor
  · intro h
    have hm := mapLookup_mem m k v h
    refine ⟨List.mem_map_of_mem Prod.snd hm, ?_⟩
    have hk := hkc (k, v) hm
    exact hk.symm
  · rintro ⟨hv, hk⟩
    obtain ⟨kv, hkv, hsnd⟩ := List.mem_map.mp hv
    have hkv_eq : kv = (k, v) := by
      have h1 := hkc kv hkv
      cases kv with
      | mk a b =>
        simp only at hsnd h1
        subst hsnd
        have : a = k := h1.trans hk
        rw [this]
    exact mapLookup_of_mem m k v hnd (hkv_eq ▸ hkv)

theorem option_eq_of_some_iff {V : Type} {o o' : Option V}
    (h : ∀ v, o = some v ↔ o' = some v) : o = o' := by
  cases o with
  | some v => exact ((h v).mp rfl).symm
  | none =>
    cases o' with
    | none => rfl
    | some v => exact absurd ((h v).mpr rfl) (by simp)

theorem fromList_intoList_lookup {V : Type} (idOf : V → Nat) (m : List (Nat × V)) (l : List V)
    (hok : collOk idOf m) (hperm : l.Perm (intoList m)) (k : Nat) :
    mapLookup (fromList idOf l) k = mapLookup m k := by
  obtain ⟨hnd, hkc⟩ := hok
  have hmap : (intoList m).map idOf = m.map Prod.fst := by
    unfold intoList
    rw [List.map_map]
    exact List.map_congr_left (fun kv hkv => (hkc kv hkv).symm)
  have hndl : (l.map idOf).Nodup := by
    rw [(hperm.map idOf).nodup_iff, hmap]
    exact hnd
  apply option_eq_of_some_iff
  intro v
  rw [mapLookup_fromList_eq_some idOf l k v hndl, mapLookup_eq_some_iff idOf m k v hnd hkc]
  exact and_congr_left (fun _ => hperm.mem_iff)

/-! Lemmas about the artifact state machines and the per-part steps. -/

theorem tverify_idem (t : ThumbnailState) (root : String) (fs : Fs) :
    (t.verify root fs).verify root fs = t.verify root fs := by
  cases t with
  | none => rfl
  | downloaded p =>
    cases h : fs (pathJoin root p) <;> simp [ThumbnailState.verify, h]

theorem tdelete_fst (t : ThumbnailState) (root : String) (fs : Fs) :
    (t.delete root fs).1 = ThumbnailState.none := by
  cases t <;> rfl

theorem dverify_fst_verify (d : DownloadState) (root : String) (fs : Fs) :
    ((d.verify root fs).1).verify root fs = ((d.verify root fs).1, []) := by
  cases d with
  | none => rfl
  | downloading p =>
    cases h : fs (pathJoin root p) <;>
      simp [DownloadState.verify, DownloadState.target, cancelEvents, h]
  | transcoding sid p =>
    cases h : fs (pathJoin root p) <;>
      simp [DownloadState.verify, DownloadState.target, cancelEvents, h]
  | downloaded p =>
    cases h : fs (pathJoin root p) <;>
      simp [DownloadState.verify, DownloadState.target, cancelEvents, h]
  | transcoded p =>
    cases h : fs (pathJoin root p) <;>
      simp [DownloadState.verify, DownloadState.target, cancelEvents, h]

theorem dverify_no_remove (d : DownloadState) (root : String) (fs : Fs) (p : String) :
    Event.removeFile p ∉ (d.verify root fs).2 := by
  cases d with
  | none => simp [DownloadState.verify, DownloadState.target]
  | downloading q =>
    cases h : fs (pathJoin root q) <;>
      simp [DownloadState.verify, DownloadState.target, cancelEvents, h]
  | transcoding sid q =>
    cases h : fs (pathJoin root q) <;>
      simp [DownloadState.verify, DownloadState.target, cancelEvents, h]
  | downloaded q =>
    cases h : fs (pathJoin root q) <;>
      simp [DownloadState.verify, DownloadState.target, cancelEvents, h]
  | transcoded q =>
    cases h : fs (pathJoin root q) <;>
      simp [DownloadState.verify, DownloadState.target, cancelEvents, h]

theorem verifyStep_fst_stable (p : VideoPart) (root : String) (fs : Fs) :
    ((p.verifyStep root fs).1).verifyStep root fs = ((p.verifyStep root fs).1, []) := by
  have h := dverify_fst_verify p.download root fs
  simp [VideoPart.verifyStep, h]

theorem verifyStep_none (p : VideoPart) (root : String) (fs : Fs)
    (h : p.download = DownloadState.none) : p.verifyStep root fs = (p, []) := by
  obtain ⟨dur, dl⟩ := p
  simp only at h
  subst h
  rfl

theorem staleStep_fst_stable (q : VideoPart) (root : String) (g : Fs) :
    (((q.staleStep root g).1).verifyStep root g) = ((q.staleStep root g).1, []) := by
  by_cases h : q.download = DownloadState.none
  · rw [VideoPart.staleStep, if_neg (by simpa using h)]
    exact verifyStep_none q root g h
  · rw [VideoPart.staleStep, if_pos (by simpa using h)]
    exact verifyStep_fst_stable q root g

theorem staleStep_of_verifyStable (q : VideoPart) (root : String) (g : Fs)
    (h : q.verifyStep root g = (q, [])) : (q.staleStep root g).1 = q := by
  by_cases hd : q.download = DownloadState.none
  · rw [VideoPart.staleStep, if_neg (by simpa using hd)]
  · rw [VideoPart.staleStep, if_pos (by simpa using hd), h]

theorem list_map_self {α : Type} (l : List α) (f : α → α) (h : ∀ a ∈ l, f a = a) :
    l.map f = l := by
  induction l with
  | nil => rfl
  | cons a l ih =>
    rw [List.map_cons, h a (List.mem_cons_self a l),
      ih (fun b hb => h b (List.mem_cons_of_mem a hb))]

theorem detailUpdate_idem (d d' : VideoDetail) (md : Metadata)
    (h : detailUpdate d md = Except.ok d') : detailUpdate d' md = Except.ok d' := by
  cases d with
  | movie m =>
    cases hy : md.year with
    | none => simp [detailUpdate, MovieState.update, unwrap, Except.map, hy] at h
    | some y =>
      simp [detailUpdate, MovieState.update, unwrap, Except.map, hy] at h
      subst h
      simp [detailUpdate, MovieState.update, unwrap, Except.map, hy]
  | episode e =>
    cases hs : md.parentRatingKey with
    | none => simp [detailUpdate, EpisodeState.update, unwrap, Except.map, hs] at h
    | some s =>
      cases hi : md.index with
      | none => simp [detailUpdate, EpisodeState.update, unwrap, Except.map, hs, hi] at h
      | some i =>
        simp [detailUpdate, EpisodeState.update, unwrap, Except.map, hs, hi] at h
        subst h
        simp [detailUpdate, EpisodeState.update, unwrap, Except.map, hs, hi]

theorem detailUpdate_kind (d d' : VideoDetail) (md : Metadata)
    (h : detailUpdate d md = Except.ok d') : d'.kind = d.kind := by
  cases d with
  | movie m =>
    cases hy : md.year with
    | none => simp [detailUpdate, MovieState.update, unwrap, Except.map, hy] at h
    | some y =>
      simp [detailUpdate, MovieState.update, unwrap, Except.map, hy] at h
      subst h
      rfl
  | episode e =>
    cases hs : md.parentRatingKey with
    | none => simp [detailUpdate, EpisodeState.update, unwrap, Except.map, hs] at h
    | some s =>
      cases hi : md.index with
      | none => simp [detailUpdate, EpisodeState.update, unwrap, Except.map, hs, hi] at h
      | some i =>
        simp [detailUpdate, EpisodeState.update, unwrap, Except.map, hs, hi] at h
        subst h
        rfl

theorem tverify_none (root : String) (fs : Fs) :
    ThumbnailState.none.verify root fs = ThumbnailState.none := rfl

theorem tdelete_cond_fst (t : ThumbnailState) (root : String) (fs : Fs) :
    (if t ≠ ThumbnailState.none then t.delete root fs else (t, fs, [])).1 =
      ThumbnailState.none := by
  by_cases h : t = ThumbnailState.none
  · rw [if_neg (by simpa using h), h]
  · rw [if_pos (by simpa using h)]
    exact tdelete_fst t root fs

theorem verifyStep_duration (p : VideoPart) (root : String) (fs : Fs) :
    ((p.verifyStep root fs).1).duration = p.duration := rfl

theorem staleStep_duration (p : VideoPart) (root : String) (fs : Fs) :
    ((p.staleStep root fs).1).duration = p.duration := by
  by_cases h : p.download = DownloadState.none
  · rw [VideoPart.staleStep, if_neg (by simpa using h)]
  · rw [VideoPart.staleStep, if_pos (by simpa using h)]
    exact verifyStep_duration p root fs

theorem verifyParts_stable (l : List VideoPart) (root : String) (fs : Fs)
    (h : ∀ a ∈ l, a.verifyStep root fs = (a, [])) : verifyParts l root fs = (l, []) := by
  unfold verifyParts
  have hmap : l.map (fun p => p.verifyStep root fs) = l.map (fun p => (p, [])) :=
    List.map_congr_left h
  rw [hmap, Prod.mk.injEq]
  refine ⟨?_, ?_⟩
  · rw [List.map_map]
    exact list_map_self l _ (fun a _ => rfl)
  · rw [List.map_map]
    have : l.map (Prod.snd ∘ fun p => (p, ([] : List Event))) =
        l.map (fun _ => ([] : List Event)) := List.map_congr_left (fun a _ => rfl)
    rw [this]
    induction l with
    | nil => rfl
    | cons a l ih => simp [ih (fun b hb => h b (List.mem_cons_of_mem a hb))]

theorem staleParts_fst_mem_stable (l : List VideoPart) (root : String) (fs : Fs) :
    ∀ a ∈ (staleParts l root fs).1, a.verifyStep root fs = (a, []) := by
  intro a ha
  unfold staleParts at ha
  rw [List.map_map] at ha
  obtain ⟨b, _, hb⟩ := List.mem_map.mp ha
  rw [← hb]
  exact staleStep_fst_stable b root fs

theorem staleParts_stable (l : List VideoPart) (root : String) (fs : Fs)
    (h : ∀ a ∈ l, a.verifyStep root fs = (a, [])) : (staleParts l root fs).1 = l := by
  unfold staleParts
  rw [List.map_map]
  exact list_map_self l _ (fun a ha => staleStep_of_verifyStable a root fs (h a ha))

theorem verifyParts_length (l : List VideoPart) (root : String) (fs : Fs) :
    (verifyParts l root fs).1.length = l.length := by
  unfold verifyParts
  simp

theorem verifyParts_durations (l : List VideoPart) (root : String) (fs : Fs) :
    (verifyParts l root fs).1.map VideoPart.duration = l.map VideoPart.duration := by
  unfold verifyParts
  rw [List.map_map, List.map_map]
  exact List.map_congr_left (fun a _ => rfl)

theorem staleParts_length (l : List VideoPart) (root : String) (fs : Fs) :
    (staleParts l root fs).1.length = l.length := by
  unfold staleParts
  simp

theorem staleParts_durations (l : List VideoPart) (root : String) (fs : Fs) :
    (staleParts l root fs).1.map VideoPart.duration = l.map VideoPart.duration := by
  unfold staleParts
  rw [List.map_map, List.map_map]
  exact List.map_congr_left (fun a _ => staleStep_duration a root fs)

theorem verifyParts_no_remove (l : List VideoPart) (root : String) (fs : Fs) (q : String) :
    Event.removeFile q ∉ (verifyParts l root fs).2 := by
  unfold verifyParts
  intro hmem
  rw [List.mem_flatten] at hmem
  obtain ⟨s, hs, hq⟩ := hmem
  rw [List.map_map] at hs
  obtain ⟨b, _, hb⟩ := List.mem_map.mp hs
  rw [← hb] at hq
  exact dverify_no_remove b.download root fs q hq

theorem verifyParts_fst_mem_stable (l : List VideoPart) (root : String) (fs : Fs) :
    ∀ a ∈ (verifyParts l root fs).1, a.verifyStep root fs = (a, []) := by
  intro a ha
  unfold verifyParts at ha
  rw [List.map_map] at ha
  obtain ⟨b, _, hb⟩ := List.mem_map.mp ha
  rw [← hb]
  exact verifyStep_fst_stable b root fs

theorem video_update_idem (v : VideoState) (item : VideoItem) (root : String) (fs : Fs)
    (v1 : VideoState) (fs1 : Fs) (e1 : List Event) (v2 : VideoState) (fs2 : Fs)
    (e2 : List Event)
    (h1 : VideoState.update v item root fs = Except.ok (v1, fs1, e1))
    (h2 : VideoState.update v1 item root fs1 = Except.ok (v2, fs2, e2)) : v2 = v1 := by
  unfold VideoState.update at h1 h2
  cases hd : detailUpdate v.detail item.metadata with
  | error e => simp [hd] at h1
  | ok detail =>
    simp only [hd] at h1
    cases hu : item.metadata.updatedAt with
    | none => simp [hu] at h1
    | some u =>
      simp only [hu] at h1
      have hdu2 : detailUpdate detail item.metadata = Except.ok detail :=
        detailUpdate_idem v.detail detail item.metadata hd
      by_cases hgt : u > v.last_updated
      · rw [if_pos hgt] at h1
        injection h1 with h1
        injection h1 with hv1 h1
        injection h1 with hfs1 he1
        have hdet1 : v1.detail = detail := by rw [← hv1]
        have htitle1 : v1.title = item.title := by rw [← hv1]
        have hlu1 : v1.last_updated = v.last_updated := by rw [← hv1]
        have hthumb1 : v1.thumbnail = ThumbnailState.none := by
          rw [← hv1]
          exact tdelete_cond_fst _ root fs
        have hparts1 : v1.parts =
            (staleParts (verifyParts v.parts root fs).1 root fs1).1 := by
          rw [← hv1, ← hfs1]
        have hstab : ∀ a ∈ v1.parts, a.verifyStep root fs1 = (a, []) := by
          rw [hparts1]
          exact staleParts_fst_mem_stable _ root fs1
        have hvp : verifyParts v1.parts root fs1 = (v1.parts, []) :=
          verifyParts_stable _ root fs1 hstab
        have hsp : (staleParts v1.parts root fs1).1 = v1.parts :=
          staleParts_stable _ root fs1 hstab
        have hdu2' : detailUpdate v1.detail item.metadata = Except.ok detail := by
          rw [hdet1]
          exact hdu2
        simp only [hdu2', hu, hlu1] at h2
        rw [if_pos hgt] at h2
        have htd' : (if v1.thumbnail.verify root fs1 ≠ ThumbnailState.none then
            (v1.thumbnail.verify root fs1).delete root fs1
          else (v1.thumbnail.verify root fs1, fs1, [])) = (ThumbnailState.none, fs1, []) := by
          rw [hthumb1, tverify_none]
          simp
        rw [htd'] at h2
        simp only [hvp, hsp] at h2
        injection h2 with h2
        injection h2 with hv2 h2
        rw [← hv2, ← htitle1, ← hdet1, ← hthumb1, ← hlu1]
      · rw [if_neg hgt] at h1
        injection h1 with h1
        injection h1 with hv1 h1
        injection h1 with hfs1 he1
        subst hfs1
        have hdet1 : v1.detail = detail := by rw [← hv1]
        have htitle1 : v1.title = item.title := by rw [← hv1]
        have hlu1 : v1.last_updated = v.last_updated := by rw [← hv1]
        have hthumb1 : v1.thumbnail = v.thumbnail.verify root fs := by rw [← hv1]
        have hparts1 : v1.parts = (verifyParts v.parts root fs).1 := by rw [← hv1]
        have hstab : ∀ a ∈ v1.parts, a.verifyStep root fs = (a, []) := by
          rw [hparts1]
          exact verifyParts_fst_mem_stable _ root fs
        have hvp : verifyParts v1.parts root fs = (v1.parts, []) :=
          verifyParts_stable _ root fs hstab
        have hvt : v1.thumbnail.verify root fs = v1.thumbnail := by
          rw [hthumb1]
          exact tverify_idem v.thumbnail root fs
        have hdu2' : detailUpdate v1.detail item.metadata = Except.ok detail := by
          rw [hdet1]
          exact hdu2
        simp only [hdu2', hu, hlu1] at h2
        rw [if_neg hgt] at h2
        simp only [hvt, hvp] at h2
        injection h2 with h2
        injection h2 with hv2 h2
        rw [← hv2, ← htitle1, ← hdet1, ← hlu1]

theorem collection_update_idem (c : CollectionState) (snap : CollectionItem) (root : String)
    (fs : Fs) :
    (CollectionState.update (CollectionState.update c snap root fs).1 snap root
        (CollectionState.update c snap root fs).2.1).1 =
      (CollectionState.update c snap root fs).1 := by
  cases ht : c.thumbnail with
  | none =>
    by_cases hgt : snap.updatedAt > c.last_updated <;>
      simp [CollectionState.update, ht, ThumbnailState.verify, hgt]
  | downloaded p =>
    cases hk : fs (pathJoin root p) <;>
      by_cases hgt : snap.updatedAt > c.last_updated <;>
        simp [CollectionState.update, ht, ThumbnailState.verify, ThumbnailState.delete,
          hk, hgt]

theorem show_update_idem (s : ShowState) (snap : ShowItem) (root : String) (fs : Fs) :
    (ShowState.update (ShowState.update s snap root fs).1 snap root
        (ShowState.update s snap root fs).2.1).1 =
      (ShowState.update s snap root fs).1 := by
  cases ht : s.thumbnail with
  | none =>
    by_cases hgt : snap.updatedAt > s.last_updated <;>
      simp [ShowState.update, ht, ThumbnailState.verify, hgt]
  | downloaded p =>
    cases hk : fs (pathJoin root p) <;>
      by_cases hgt : snap.updatedAt > s.last_updated <;>
        simp [ShowState.update, ht, ThumbnailState.verify, ThumbnailState.delete, hk, hgt]

theorem collection_update_no_delete (c : CollectionState) (snap : CollectionItem)
    (root : String) (fs : Fs) (h : ¬ snap.updatedAt > c.last_updated) :
    (CollectionState.update c snap root fs).2.2 = [] := by
  simp only [CollectionState.update]
  rw [if_neg (fun hc => h hc.2)]

theorem show_update_no_delete (s : ShowState) (snap : ShowItem)
    (root : String) (fs : Fs) (h : ¬ snap.updatedAt > s.last_updated) :
    (ShowState.update s snap root fs).2.2 = [] := by
  simp only [ShowState.update]
  rw [if_neg (fun hc => h hc.2)]

theorem video_update_no_remove (v : VideoState) (item : VideoItem) (root : String) (fs : Fs)
    (v1 : VideoState) (fs1 : Fs) (e1 : List Event) (u : Int)
    (hu : item.metadata.updatedAt = some u) (hgt : ¬ u > v.last_updated)
    (h1 : VideoState.update v item root fs = Except.ok (v1, fs1, e1)) :
    ∀ q, Event.removeFile q ∉ e1 := by
  unfold VideoState.update at h1
  cases hd : detailUpdate v.detail item.metadata with
  | error e => simp [hd] at h1
  | ok detail =>
    simp only [hd, hu] at h1
    rw [if_neg hgt] at h1
    injection h1 with h1
    injection h1 with hv1 h1
    injection h1 with hfs1 he1
    intro q
    rw [← he1]
    exact verifyParts_no_remove v.parts root fs q

/-! Concrete inputs used by witnesses, counterexamples and the
code-divergence evaluations. -/

/-- A video record with last_updated 100 and one part in Downloaded at
relative path p. -/
def v0 : VideoState :=
  { id := 1
    title := "t"
    detail := VideoDetail.movie { library := 1, year := 2000 }
    air_date := "2000-01-01"
    thumbnail := ThumbnailState.none
    media_id := 5
    last_updated := 100
    parts := [{ duration := 60, download := DownloadState.downloaded "p" }] }

/-- A remote snapshot for the same video carrying updated_at 101, strictly
newer than the stored last_updated 100. -/
def item0 : VideoItem :=
  { ratingKey := 1
    title := "t"
    metadata :=
      { metadataType := some MetadataType.movie
        librarySectionId := some 1
        year := some 2000
        parentRatingKey := Option.none
        index := Option.none
        originallyAvailableAt := some "2000-01-01"
        updatedAt := some 101 }
    media := [{ id := 5, parts := [{ duration := some 60 }] }] }

/-- A filesystem on which exactly the downloaded part file root/p exists. -/
def fs0 : Fs := fun q => if q = pathJoin "root" "p" then FsKind.file else FsKind.absent

/-- A filesystem with no files at all. -/
def fsA : Fs := fun _ => FsKind.absent

/-- A show record with last_updated 100 and no thumbnail. -/
def s0 : ShowState :=
  { id := 10, library := 1, title := "x", year := 2020, last_updated := 100,
    thumbnail := ThumbnailState.none }

/-- A remote show snapshot carrying updated_at 150. -/
def showItem0 : ShowItem :=
  { ratingKey := 10, librarySectionId := 1, title := "x", year := 2020, updatedAt := 150 }

/-- Claim C1: the claim says that an update whose remote timestamp is
strictly newer than the stored last_updated turns a Downloaded part into
None and attempts removal of its file.  The code instead only re-verifies
the part (VideoState::update calls verify, not delete, in the staleness
branch), so with the part file present on disk the part stays
Downloaded(p), no removal is attempted, and no event is emitted: update
returns the record unchanged with an empty event list.  This theorem
evaluates the code at that failing input. -/
theorem c1_stale_part_retained_not_deleted :
    (VideoState.update v0 item0 "root" fs0).map (fun r => (r.1, r.2.2)) =
        Except.ok (v0, ([] : List Event)) ∧
      v0.parts = [{ duration := 60, download := DownloadState.downloaded "p" }] ∧
      v0.last_updated = 100 ∧ item0.metadata.updatedAt = some 101 := by
  refine ⟨rfl, rfl, rfl, rfl⟩

/-- Claim C2: the claim says update adopts a strictly newer remote
timestamp into last_updated.  No update in the code ever writes
last_updated: for every show and collection update it is left exactly as
stored, and at the spec's own scenario (stored 100, remote 150) it stays
100 instead of becoming 150. -/
theorem c2_last_updated_never_written :
    (∀ (s : ShowState) (snap : ShowItem) (root : String) (fs : Fs),
      (ShowState.update s snap root fs).1.last_updated = s.last_updated) ∧
    (∀ (c : CollectionState) (snap : CollectionItem) (root : String) (fs : Fs),
      (CollectionState.update c snap root fs).1.last_updated = c.last_updated) ∧
    (ShowState.update s0 showItem0 "root" fsA).1.last_updated = 100 ∧
    showItem0.updatedAt = 150 := by
  refine ⟨?_, ?_, rfl, rfl⟩
  · intro s snap root fs
    simp only [ShowState.update]
    split <;> rfl
  · intro c snap root fs
    simp only [CollectionState.update]
    split <;> rfl

/-- Claim C4: verify self-heals.  A Downloaded thumbnail whose file stats
as NotFound becomes None, and is unchanged when the file exists as a
regular file; a non-None DownloadState whose file stats as NotFound
becomes None (for Transcoding after emitting the best-effort cancel of
the carried session), and is returned unchanged with no events when the
file exists as a regular file. -/
theorem c4_verify_self_heals :
    (∀ (p root : String) (fs : Fs), fs (pathJoin root p) = FsKind.absent →
      ThumbnailState.verify (ThumbnailState.downloaded p) root fs = ThumbnailState.none) ∧
    (∀ (p root : String) (fs : Fs), fs (pathJoin root p) = FsKind.file →
      ThumbnailState.verify (ThumbnailState.downloaded p) root fs =
        ThumbnailState.downloaded p) ∧
    (∀ (d : DownloadState) (p root : String) (fs : Fs), d.path? = some p →
      fs (pathJoin root p) = FsKind.absent → (d.verify root fs).1 = DownloadState.none) ∧
    (∀ (sid p root : String) (fs : Fs), fs (pathJoin root p) = FsKind.absent →
      DownloadState.verify (DownloadState.transcoding sid p) root fs =
        (DownloadState.none, [Event.cancelSession sid])) ∧
    (∀ (d : DownloadState) (p root : String) (fs : Fs), d.path? = some p →
      fs (pathJoin root p) = FsKind.file → d.verify root fs = (d, [])) := by
  refine ⟨?_, ?_, ?_, ?_, ?_⟩
  · intro p root fs h
    simp [ThumbnailState.verify, h]
  · intro p root fs h
    simp [ThumbnailState.verify, h]
  · intro d p root fs hp h
    cases d with
    | none => simp [DownloadState.path?, DownloadState.target] at hp
    | downloading q =>
      simp [DownloadState.path?, DownloadState.target] at hp
      subst hp
      simp [DownloadState.verify, DownloadState.target, h]
    | transcoding sid q =>
      simp [DownloadState.path?, DownloadState.target] at hp
      subst hp
      simp [DownloadState.verify, DownloadState.target, h]
    | downloaded q =>
      simp [DownloadState.path?, DownloadState.target] at hp
      subst hp
      simp [DownloadState.verify, DownloadState.target, h]
    | transcoded q =>
      simp [DownloadState.path?, DownloadState.target] at hp
      subst hp
      simp [DownloadState.verify, DownloadState.target, h]
  · intro sid p root fs h
    simp [DownloadState.verify, DownloadState.target, cancelEvents, h]
  · intro d p root fs hp h
    cases d with
    | none => simp [DownloadState.path?, DownloadState.target] at hp
    | downloading q =>
      simp [DownloadState.path?, DownloadState.target] at hp
      subst hp
      simp [DownloadState.verify, DownloadState.target, h]
    | transcoding sid q =>
      simp [DownloadState.path?, DownloadState.target] at hp
      subst hp
      simp [DownloadState.verify, DownloadState.target, h]
    | downloaded q =>
      simp [DownloadState.path?, DownloadState.target] at hp
      subst hp
      simp [DownloadState.verify, DownloadState.target, h]
    | transcoded q =>
      simp [DownloadState.path?, DownloadState.target] at hp
      subst hp
      simp [DownloadState.verify, DownloadState.target, h]

/-- Claim C4 witness: the self-heal and the no-change case at concrete
inputs. -/
theorem c4_witness :
    ThumbnailState.verify (ThumbnailState.downloaded "a") "r" fsA = ThumbnailState.none ∧
    DownloadState.verify (DownloadState.transcoding "s" "a") "r" fsA =
      (DownloadState.none, [Event.cancelSession "s"]) ∧
    DownloadState.verify (DownloadState.downloaded "p") "root" fs0 =
      (DownloadState.downloaded "p", []) :=
  ⟨c4_verify_self_heals.1 "a" "r" fsA rfl,
    c4_verify_self_heals.2.2.2.1 "s" "a" "r" fsA rfl,
    c4_verify_self_heals.2.2.2.2 (DownloadState.downloaded "p") "p" "root" fs0 rfl rfl⟩

/-- Claim C5: delete on a non-None DownloadState always attempts removal
of root/path, emits the best-effort cancel exactly once when a session id
is carried (and never otherwise), and ends in None, whatever the
filesystem holds; delete on None is a no-op. -/
theorem c5_delete_unconditional :
    (∀ (d : DownloadState) (p root : String) (fs : Fs), d.target = some (p, Option.none) →
      d.delete root fs =
        (DownloadState.none, fs.removeAt (pathJoin root p),
          [Event.removeFile (pathJoin root p)])) ∧
    (∀ (d : DownloadState) (p sid root : String) (fs : Fs),
      d.target = some (p, some sid) →
      d.delete root fs =
        (DownloadState.none, fs.removeAt (pathJoin root p),
          [Event.removeFile (pathJoin root p), Event.cancelSession sid])) ∧
    (∀ (root : String) (fs : Fs),
      DownloadState.none.delete root fs = (DownloadState.none, fs, [])) := by
  refine ⟨?_, ?_, fun root fs => rfl⟩
  · intro d p root fs ht
    cases d with
    | none => simp [DownloadState.target] at ht
    | downloading q =>
      simp [DownloadState.target] at ht
      subst ht
      simp [DownloadState.delete, DownloadState.target, cancelEvents]
    | transcoding sid q => simp [DownloadState.target] at ht
    | downloaded q =>
      simp [DownloadState.target] at ht
      subst ht
      simp [DownloadState.delete, DownloadState.target, cancelEvents]
    | transcoded q =>
      simp [DownloadState.target] at ht
      subst ht
      simp [DownloadState.delete, DownloadState.target, cancelEvents]
  · intro d p sid root fs ht
    cases d with
    | none => simp [DownloadState.target] at ht
    | downloading q => simp [DownloadState.target] at ht
    | transcoding sid2 q =>
      simp [DownloadState.target] at ht
      obtain ⟨hq, hs⟩ := ht
      subst hq
      subst hs
      simp [DownloadState.delete, DownloadState.target, cancelEvents]
    | downloaded q => simp [DownloadState.target] at ht
    | transcoded q => simp [DownloadState.target] at ht

/-- Claim C5 witness: delete at concrete inputs, with and without a
carried session and with the file present or already absent. -/
theorem c5_witness :
    DownloadState.delete (DownloadState.transcoding "s" "p") "root" fs0 =
      (DownloadState.none, Fs.removeAt fs0 (pathJoin "root" "p"),
        [Event.removeFile (pathJoin "root" "p"), Event.cancelSession "s"]) ∧
    DownloadState.delete (DownloadState.downloaded "q") "root" fsA =
      (DownloadState.none, Fs.removeAt fsA (pathJoin "root" "q"),
        [Event.removeFile (pathJoin "root" "q")]) :=
  ⟨c5_delete_unconditional.2.1 (DownloadState.transcoding "s" "p") "p" "s" "root" fs0 rfl,
    c5_delete_unconditional.1 (DownloadState.downloaded "q") "q" "root" fsA rfl⟩

/-- A collection record with last_updated 100 and no thumbnail. -/
def col0 : CollectionState :=
  { id := 3, library := 1, title := "c", items := [7], last_updated := 100,
    thumbnail := ThumbnailState.none }

/-- A remote collection snapshot whose updated_at 90 is not newer than the
stored last_updated 100. -/
def colItem0 : CollectionItem :=
  { ratingKey := 3, librarySectionId := 1, title := "c", updatedAt := 90 }

/-- Claim C3: calling update twice with the same remote snapshot and no
external filesystem change in between leaves every field of the record,
artifact states included, identical to its value after the first call,
for every entity type; and when the remote timestamp is equal or lesser,
no artifact is deleted (collection and show updates emit no events at
all, and a video update emits no file-removal event). -/
theorem c3_update_idempotent :
    (∀ (p : PlaylistState) (snap : PlaylistItem),
      PlaylistState.update (PlaylistState.update p snap) snap =
        PlaylistState.update p snap) ∧
    (∀ (s : SeasonState) (snap : SeasonItem),
      SeasonState.update (SeasonState.update s snap) snap = SeasonState.update s snap) ∧
    (∀ (c : CollectionState) (snap : CollectionItem) (root : String) (fs : Fs),
      (CollectionState.update (CollectionState.update c snap root fs).1 snap root
          (CollectionState.update c snap root fs).2.1).1 =
        (CollectionState.update c snap root fs).1) ∧
    (∀ (s : ShowState) (snap : ShowItem) (root : String) (fs : Fs),
      (ShowState.update (ShowState.update s snap root fs).1 snap root
          (ShowState.update s snap root fs).2.1).1 =
        (ShowState.update s snap root fs).1) ∧
    (∀ (v : VideoState) (item : VideoItem) (root : String) (fs : Fs)
        (v1 : VideoState) (fs1 : Fs) (e1 : List Event) (v2 : VideoState) (fs2 : Fs)
        (e2 : List Event),
      VideoState.update v item root fs = Except.ok (v1, fs1, e1) →
      VideoState.update v1 item root fs1 = Except.ok (v2, fs2, e2) → v2 = v1) ∧
    (∀ (c : CollectionState) (snap : CollectionItem) (root : String) (fs : Fs),
      ¬ snap.updatedAt > c.last_updated →
      (CollectionState.update c snap root fs).2.2 = []) ∧
    (∀ (s : ShowState) (snap : ShowItem) (root : String) (fs : Fs),
      ¬ snap.updatedAt > s.last_updated → (ShowState.update s snap root fs).2.2 = []) ∧
    (∀ (v : VideoState) (item : VideoItem) (root : String) (fs : Fs)
        (v1 : VideoState) (fs1 : Fs) (e1 : List Event) (u : Int),
      item.metadata.updatedAt = some u → ¬ u > v.last_updated →
      VideoState.update v item root fs = Except.ok (v1, fs1, e1) →
      ∀ q, Event.removeFile q ∉ e1) :=
  ⟨fun _ _ => rfl, fun _ _ => rfl, collection_update_idem, show_update_idem,
    video_update_idem, collection_update_no_delete, show_update_no_delete,
    fun v item root fs v1 fs1 e1 u hu hgt h1 =>
      video_update_no_remove v item root fs v1 fs1 e1 u hu hgt h1⟩

/-- Claim C3 witness: the video idempotence conjunct applied at a concrete
record and snapshot (both update calls evaluate), and the no-delete
conjunct at a concrete not-newer snapshot. -/
theorem c3_witness :
    v0 = v0 ∧ (CollectionState.update col0 colItem0 "root" fsA).2.2 = [] :=
  ⟨c3_update_idempotent.2.2.2.2.1 v0 item0 "root" fs0 v0 fs0 [] v0 fs0 [] rfl rfl,
    c3_update_idempotent.2.2.2.2.2.1 col0 colItem0 "root" fsA (by decide)⟩

/-- Claim C6: serializing a well-formed ServerState (distinct keys, each
equal to its record's id) to arrays of records and deserializing any
reordering of those arrays yields a ServerState with the same token and
name whose every collection maps exactly the original identifiers to the
original records. -/
theorem c6_roundtrip (s : ServerState) (d : ServerDoc)
    (hpl : collOk (fun p => p.id) s.playlists)
    (hco : collOk (fun c => c.id) s.collections)
    (hli : collOk (fun l => l.id) s.libraries)
    (hsh : collOk (fun x => x.id) s.shows)
    (hse : collOk (fun x => x.id) s.seasons)
    (hvi : collOk (fun v => v.id) s.videos)
    (htok : d.token = (serializeServer s).token)
    (hname : d.name = (serializeServer s).name)
    (h1 : d.playlists.Perm (serializeServer s).playlists)
    (h2 : d.collections.Perm (serializeServer s).collections)
    (h3 : d.libraries.Perm (serializeServer s).libraries)
    (h4 : d.shows.Perm (serializeServer s).shows)
    (h5 : d.seasons.Perm (serializeServer s).seasons)
    (h6 : d.videos.Perm (serializeServer s).videos) :
    (deserializeServer d).token = s.token ∧ (deserializeServer d).name = s.name ∧
    (∀ k, mapLookup (deserializeServer d).playlists k = mapLookup s.playlists k) ∧
    (∀ k, mapLookup (deserializeServer d).collections k = mapLookup s.collections k) ∧
    (∀ k, mapLookup (deserializeServer d).libraries k = mapLookup s.libraries k) ∧
    (∀ k, mapLookup (deserializeServer d).shows k = mapLookup s.shows k) ∧
    (∀ k, mapLookup (deserializeServer d).seasons k = mapLookup s.seasons k) ∧
    (∀ k, mapLookup (deserializeServer d).videos k = mapLookup s.videos k) := by
  refine ⟨htok, hname, ?_, ?_, ?_, ?_, ?_, ?_⟩
  · exact fun k => fromList_intoList_lookup _ s.playlists d.playlists hpl h1 k
  · exact fun k => fromList_intoList_lookup _ s.collections d.collections hco h2 k
  · exact fun k => fromList_intoList_lookup _ s.libraries d.libraries hli h3 k
  · exact fun k => fromList_intoList_lookup _ s.shows d.shows hsh h4 k
  · exact fun k => fromList_intoList_lookup _ s.seasons d.seasons hse h5 k
  · exact fun k => fromList_intoList_lookup _ s.videos d.videos hvi h6 k

/-- A first concrete playlist record. -/
def pl1 : PlaylistState := { id := 1, title := "a", videos := [3, 4] }

/-- A second concrete playlist record. -/
def pl2 : PlaylistState := { id := 2, title := "b", videos := [] }

/-- A concrete ServerState holding the two playlists. -/
def s6 : ServerState :=
  { token := "tk", name := "srv", playlists := [(1, pl1), (2, pl2)], collections := [],
    libraries := [], shows := [], seasons := [], videos := [] }

/-- The serialized document of s6 with the playlist array reordered. -/
def d6 : ServerDoc :=
  { token := "tk", name := "srv", playlists := [pl2, pl1], collections := [],
    libraries := [], shows := [], seasons := [], videos := [] }

/-- Claim C6 witness: the round trip at a concrete two-playlist state with
the serialized array reordered. -/
theorem c6_witness :
    mapLookup (deserializeServer d6).playlists 1 = mapLookup s6.playlists 1 ∧
    mapLookup (deserializeServer d6).playlists 2 = mapLookup s6.playlists 2 ∧
    (deserializeServer d6).token = s6.token := by
  have h := c6_roundtrip s6 d6 (by decide) (by decide) (by decide) (by decide) (by decide)
    (by decide) rfl rfl (List.Perm.swap pl1 pl2 []) (List.Perm.refl _) (List.Perm.refl _)
    (List.Perm.refl _) (List.Perm.refl _) (List.Perm.refl _)
  exact ⟨h.2.2.1 1, h.2.2.1 2, h.1⟩

/-- Claim C7: after deserialization every entry (k, v) of every
identifier-keyed collection satisfies k = v.id, for any input arrays. -/
theorem c7_key_consistency (d : ServerDoc) :
    keyConsistent (fun p => p.id) (deserializeServer d).playlists ∧
    keyConsistent (fun c => c.id) (deserializeServer d).collections ∧
    keyConsistent (fun l => l.id) (deserializeServer d).libraries ∧
    keyConsistent (fun x => x.id) (deserializeServer d).shows ∧
    keyConsistent (fun x => x.id) (deserializeServer d).seasons ∧
    keyConsistent (fun v => v.id) (deserializeServer d).videos :=
  ⟨fromList_keyConsistent _ d.playlists, fromList_keyConsistent _ d.collections,
    fromList_keyConsistent _ d.libraries, fromList_keyConsistent _ d.shows,
    fromList_keyConsistent _ d.seasons, fromList_keyConsistent _ d.videos⟩

/-- A remote video item whose metadata_type is neither Movie nor Episode
(everything else present and well-formed). -/
def badItem0 : VideoItem :=
  { ratingKey := 7
    title := "b"
    metadata :=
      { metadataType := some MetadataType.otherType
        librarySectionId := some 1
        year := some 2000
        parentRatingKey := Option.none
        index := Option.none
        originallyAvailableAt := some "2000-01-01"
        updatedAt := some 100 }
    media := [{ id := 1, parts := [] }] }

/-- Claim C8 counterexample: on a remote item of unrecognized type the
code does not report an ItemNotSupported or ItemIncomplete condition to
the caller; VideoState::from panics (the Except.error outcome models the
Rust panic with its message), i.e. it terminates abnormally on such
input, contradicting the claim. -/
theorem c8_counterexample :
    VideoState.fromItem badItem0 = Except.error "Unexpected video type" := rfl

/-- Claim C8 amended: update preserves the existing detail variant and
never fabricates data, but instead of reporting an ItemNotSupported or
ItemIncomplete condition to the caller the code terminates abnormally on
such input: construction panics with "Unexpected video type" on an
unrecognized remote type, an update of a Movie record panics when year is
absent, an update of an Episode record panics when parent_rating_key is
absent, any update panics when updated_at is absent, and construction of
a Movie panics when library_section_id is absent (the unwrap panic). -/
theorem c8_amended_variant_kept_panic_on_unknown :
    (∀ (v : VideoState) (item : VideoItem) (root : String) (fs : Fs)
        (v2 : VideoState) (fs2 : Fs) (ev : List Event),
      VideoState.update v item root fs = Except.ok (v2, fs2, ev) →
      v2.detail.kind = v.detail.kind) ∧
    (∀ item : VideoItem,
      item.metadata.metadataType = Option.none ∨
        item.metadata.metadataType = some MetadataType.otherType →
      VideoState.fromItem item = Except.error "Unexpected video type") ∧
    (∀ (v : VideoState) (item : VideoItem) (root : String) (fs : Fs) (m : MovieState),
      v.detail = VideoDetail.movie m → item.metadata.year = Option.none →
      VideoState.update v item root fs = Except.error unwrapMsg) ∧
    (∀ (v : VideoState) (item : VideoItem) (root : String) (fs : Fs) (e : EpisodeState),
      v.detail = VideoDetail.episode e → item.metadata.parentRatingKey = Option.none →
      VideoState.update v item root fs = Except.error unwrapMsg) ∧
    (∀ (v : VideoState) (item : VideoItem) (root : String) (fs : Fs)
        (detail : VideoDetail),
      detailUpdate v.detail item.metadata = Except.ok detail →
      item.metadata.updatedAt = Option.none →
      VideoState.update v item root fs = Except.error unwrapMsg) ∧
    (∀ item : VideoItem,
      item.metadata.metadataType = some MetadataType.movie →
      item.metadata.librarySectionId = Option.none →
      VideoState.fromItem item = Except.error unwrapMsg) := by
  refine ⟨?_, ?_, ?_, ?_, ?_, ?_⟩
  · intro v item root fs v2 fs2 ev h
    unfold VideoState.update at h
    cases hd : detailUpdate v.detail item.metadata with
    | error e => simp [hd] at h
    | ok detail =>
      simp only [hd] at h
      cases hu : item.metadata.updatedAt with
      | none => simp [hu] at h
      | some u =>
        simp only [hu] at h
        by_cases hgt : u > v.last_updated
        · rw [if_pos hgt] at h
          injection h with h
          injection h with hv2 h
          rw [← hv2]
          exact detailUpdate_kind v.detail detail item.metadata hd
        · rw [if_neg hgt] at h
          injection h with h
          injection h with hv2 h
          rw [← hv2]
          exact detailUpdate_kind v.detail detail item.metadata hd
  · intro item hmt
    rcases hmt with hmt | hmt <;> simp [VideoState.fromItem, hmt]
  · intro v item root fs m hdet hy
    unfold VideoState.update
    simp [hdet, detailUpdate, MovieState.update, unwrap, hy, Except.map]
  · intro v item root fs e hdet hp
    unfold VideoState.update
    simp [hdet, detailUpdate, EpisodeState.update, unwrap, hp, Except.map]
  · intro v item root fs detail hd hu
    unfold VideoState.update
    simp [hd, hu]
  · intro item hmt hlib
    simp [VideoState.fromItem, hmt, MovieState.fromMeta, unwrap, hlib, Except.map]

/-- A video record whose detail is the Episode variant. -/
def vEp : VideoState :=
  { id := 2
    title := "e"
    detail := VideoDetail.episode { season := 4, index := 2 }
    air_date := "2001-01-01"
    thumbnail := ThumbnailState.none
    media_id := 6
    last_updated := 100
    parts := [] }

/-- A remote movie item whose year is absent. -/
def itemNoYear : VideoItem :=
  { ratingKey := 1
    title := "t"
    metadata :=
      { metadataType := some MetadataType.movie
        librarySectionId := some 1
        year := Option.none
        parentRatingKey := Option.none
        index := Option.none
        originallyAvailableAt := some "2000-01-01"
        updatedAt := some 101 }
    media := [] }

/-- A remote episode item whose parent_rating_key is absent. -/
def itemNoParent : VideoItem :=
  { ratingKey := 2
    title := "e"
    metadata :=
      { metadataType := some MetadataType.episode
        librarySectionId := some 1
        year := some 2001
        parentRatingKey := Option.none
        index := some 2
        originallyAvailableAt := some "2001-01-01"
        updatedAt := some 101 }
    media := [] }

/-- A remote movie item whose updated_at is absent. -/
def itemNoUpd : VideoItem :=
  { ratingKey := 1
    title := "t"
    metadata :=
      { metadataType := some MetadataType.movie
        librarySectionId := some 1
        year := some 2000
        parentRatingKey := Option.none
        index := Option.none
        originallyAvailableAt := some "2000-01-01"
        updatedAt := Option.none }
    media := [{ id := 5, parts := [{ duration := some 60 }] }] }

/-- A remote movie item whose library_section_id is absent. -/
def itemNoLib : VideoItem :=
  { ratingKey := 1
    title := "t"
    metadata :=
      { metadataType := some MetadataType.movie
        librarySectionId := Option.none
        year := some 2000
        parentRatingKey := Option.none
        index := Option.none
        originallyAvailableAt := some "2000-01-01"
        updatedAt := some 101 }
    media := [{ id := 5, parts := [{ duration := some 60 }] }] }

/-- Claim C8 witness: the variant-preservation part applied at a concrete
successful update, the unrecognized-type panic at the concrete
unrecognized item, and the missing-field panics at concrete items lacking
year, parent_rating_key, updated_at and library_section_id. -/
theorem c8_witness :
    v0.detail.kind = v0.detail.kind ∧
    VideoState.fromItem badItem0 = Except.error "Unexpected video type" ∧
    VideoState.update v0 itemNoYear "root" fsA = Except.error unwrapMsg ∧
    VideoState.update vEp itemNoParent "root" fsA = Except.error unwrapMsg ∧
    VideoState.update v0 itemNoUpd "root" fsA = Except.error unwrapMsg ∧
    VideoState.fromItem itemNoLib = Except.error unwrapMsg :=
  ⟨c8_amended_variant_kept_panic_on_unknown.1 v0 item0 "root" fs0 v0 fs0 [] rfl,
    c8_amended_variant_kept_panic_on_unknown.2.1 badItem0 (Or.inr rfl),
    c8_amended_variant_kept_panic_on_unknown.2.2.1 v0 itemNoYear "root" fsA
      { library := 1, year := 2000 } rfl rfl,
    c8_amended_variant_kept_panic_on_unknown.2.2.2.1 vEp itemNoParent "root" fsA
      { season := 4, index := 2 } rfl rfl,
    c8_amended_variant_kept_panic_on_unknown.2.2.2.2.1 v0 itemNoUpd "root" fsA
      (VideoDetail.movie { library := 1, year := 2000 }) rfl rfl,
    c8_amended_variant_kept_panic_on_unknown.2.2.2.2.2 itemNoLib rfl rfl⟩

/-- Claim C9: PlaylistState::update changes only the title (id and the
ordered videos list are untouched), and CollectionState::update never
changes the items set, the library reference, or the id, whatever the
snapshot contains. -/
theorem c9_update_membership_frame :
    (∀ (p : PlaylistState) (snap : PlaylistItem),
      PlaylistState.update p snap = { p with title := snap.title }) ∧
    (∀ (c : CollectionState) (snap : CollectionItem) (root : String) (fs : Fs),
      (CollectionState.update c snap root fs).1.items = c.items ∧
      (CollectionState.update c snap root fs).1.library = c.library ∧
      (CollectionState.update c snap root fs).1.id = c.id) := by
  refine ⟨fun _ _ => rfl, ?_⟩
  intro c snap root fs
  simp only [CollectionState.update]
  split <;> exact ⟨rfl, rfl, rfl⟩

/-- Claim C10: a successful VideoState::update leaves id, air_date,
media_id, last_updated, the number of parts and every part's duration
unchanged, whatever the remote snapshot reports. -/
theorem c10_video_update_frame (v : VideoState) (item : VideoItem) (root : String)
    (fs : Fs) (v2 : VideoState) (fs2 : Fs) (ev : List Event)
    (h : VideoState.update v item root fs = Except.ok (v2, fs2, ev)) :
    v2.id = v.id ∧ v2.air_date = v.air_date ∧ v2.media_id = v.media_id ∧
    v2.last_updated = v.last_updated ∧ v2.parts.length = v.parts.length ∧
    v2.parts.map VideoPart.duration = v.parts.map VideoPart.duration := by
  unfold VideoState.update at h
  cases hd : detailUpdate v.detail item.metadata with
  | error e => simp [hd] at h
  | ok detail =>
    simp only [hd] at h
    cases hu : item.metadata.updatedAt with
    | none => simp [hu] at h
    | some u =>
      simp only [hu] at h
      by_cases hgt : u > v.last_updated
      · rw [if_pos hgt] at h
        injection h with h
        injection h with hv2 h
        refine ⟨by rw [← hv2], by rw [← hv2], by rw [← hv2], by rw [← hv2], ?_, ?_⟩
        · rw [← hv2]
          show (staleParts (verifyParts v.parts root fs).1 root _).1.length =
            v.parts.length
          rw [staleParts_length, verifyParts_length]
        · rw [← hv2]
          show (staleParts (verifyParts v.parts root fs).1 root _).1.map
              VideoPart.duration = v.parts.map VideoPart.duration
          rw [staleParts_durations, verifyParts_durations]
      · rw [if_neg hgt] at h
        injection h with h
        injection h with hv2 h
        refine ⟨by rw [← hv2], by rw [← hv2], by rw [← hv2], by rw [← hv2], ?_, ?_⟩
        · rw [← hv2]
          exact verifyParts_length v.parts root fs
        · rw [← hv2]
          exact verifyParts_durations v.parts root fs

/-- Claim C10 witness: the frame applied at a concrete successful
update. -/
theorem c10_witness :
    v0.id = v0.id ∧ v0.air_date = v0.air_date ∧ v0.media_id = v0.media_id ∧
    v0.last_updated = v0.last_updated ∧ v0.parts.length = v0.parts.length ∧
    v0.parts.map VideoPart.duration = v0.parts.map VideoPart.duration :=
  c10_video_update_frame v0 item0 "root" fs0 v0 fs0 [] rfl

end FlickSync
